import Mathlib

/-!
Verification of the `ensure` assertion library (package `ensure`).

The embedding models each assertion predicate as a pure function from its
inputs to the list of messages it dispatches to the Reporting Sink
(the `Fataler`), in dispatch order.  The list records every call to
`fatal`, i.e. it describes the behaviour for an arbitrary sink, including
sinks whose `Fatal` returns control to the predicate (such as the
`capture` sink used by the repository's own tests).  A sink whose `Fatal`
never returns observes exactly the first element of the list.

The repository has two variants of the predicate file; the message bodies
below follow the `Helper()` variant (`ensure.go` additionally prepends a
source-location prefix computed by `pstack`, which is modelled separately).

External collaborators (the spew pretty-printer, `reflect.DeepEqual`,
`regexp`, `strings.Contains` and the `stack` library) are not part of the
repository; they are modelled from the spec as noted on each definition.
-/

namespace Ensure

/-- Go `interface` values passed to the predicates.  Constructors cover the
value shapes exercised by the repository: integers, strings, error values
(carrying their `Error()` text), a typed nil pointer (`(*typ)(nil)` stored
in a non-nil interface), and the single-field struct `typ` from the tests. -/
inductive Val where
  | vint (n : Int)
  | vstr (s : String)
  | verr (msg : String)
  | vnilPtr
  | vtyp (answer : Int)
deriving DecidableEq, Repr

/-- Go whitespace class used by `strings.TrimSpace` (the Latin-1 part of
`unicode.IsSpace`). -/
def isGoSpace (c : Char) : Bool :=
  c = ' ' || c = '\t' || c = '\n' || c = '\u000B' || c = '\u000C' || c = '\r' ||
    c = '\u0085' || c = ' '

/-- Character-list form of Go `strings.TrimSpace`: drop leading and trailing
whitespace. -/
def trimChars (l : List Char) : List Char :=
  ((l.dropWhile isGoSpace).reverse.dropWhile isGoSpace).reverse

/-- Go `strings.TrimSpace`. -/
def goTrimSpace (s : String) : String :=
  String.mk (trimChars s.toList)

/-- Modelled from the spec: the external Pretty-Printer collaborator
(`spew.Sdump` on one value, without its trailing newline), rendering a value
with type and size metadata exactly as observed in the repository's tests.
The error and typed-nil-pointer renderings stand in for spew's pointer
output. -/
def dumpVal : Val → String
  | .vint n => "(int) " ++ toString n
  | .vstr s => "(string) (len=" ++ toString s.length ++ ") \"" ++ s ++ "\""
  | .verr e => "(*errors.errorString)(" ++ e ++ ")"
  | .vnilPtr => "(*ensure.typ)(<nil>)"
  | .vtyp n => "(ensure.typ) \x7b\n Answer: (int) " ++ toString n ++ "\n\x7d"

/-- Modelled from the spec: Pretty-Printer rendering of a possibly-nil
interface value. -/
def dumpOpt : Option Val → String
  | none => "(interface \x7b\x7d) <nil>"
  | some v => dumpVal v

/-- Modelled from the spec: `spew.Sdump` of one value (it appends a trailing
newline). -/
def sdump (v : Option Val) : String := dumpOpt v ++ "\n"

/-- Modelled from the spec: `spew.Sdump` of a variadic argument list (each
value followed by a newline). -/
def sdumpAll (l : List (Option Val)) : String := String.join (l.map sdump)

/-- The library's `tsdump` for one value: `Sdump` without surrounding
whitespace (`strings.TrimSpace(spew.Sdump(v))`). -/
def tsdump (v : Option Val) : String := goTrimSpace (sdump v)

/-- The library's `tsdump` on a variadic argument list. -/
def tsdumpAll (l : List (Option Val)) : String := goTrimSpace (sdumpAll l)

/-- Rendering of a `cond` (variant without the stack prefix): the formatted
message, then, when the extra diagnostics are non-empty, a newline and their
trimmed dump.  `msg` stands for the already-substituted format string. -/
def condString (msg : String) (extra : List (Option Val)) : String :=
  (if msg = "" then "" else msg) ++
    (if extra = [] then "" else "\n" ++ tsdumpAll extra)

/-- Modelled from the spec: a compiled regular expression, carrying its
source text (what `%s` prints) and its `MatchString` behaviour. -/
structure Regexp where
  src : String
  matchString : String → Bool

/-- Go function Err ensures the error satisfies the given regular expression.  An
error value is modelled by the text that both `Error()` and `%+v` render. -/
def Err (err : Option String) (re : Option Regexp) (a : List (Option Val)) :
    List String :=
  match err, re with
  | none, none => []
  | none, some r =>
      [condString ("expected error: \"" ++ r.src ++ "\" but got a nil error") a]
  | some e, none => [condString ("unexpected error: " ++ e) a]
  | some e, some r =>
      if r.matchString e then []
      else
        [condString ("expected error: \"" ++ r.src ++ "\" but got \"" ++ e ++ "\"") a]

/-- Modelled from the spec: the external Structural Equality collaborator
(`reflect.DeepEqual`), recursive structural comparison of two interface
values, here decidable equality on the value model. -/
def deepEqual (x y : Option Val) : Bool := decide (x = y)

/-- Go function DeepEqual ensures actual and expected are structurally equal.  Note the
source dumps `actual` with `spew.Sdump` (trailing newline kept) and
`expected` with `tsdump` (trimmed). -/
def DeepEqual (actual expected : Option Val) (a : List (Option Val)) :
    List String :=
  if deepEqual actual expected then []
  else
    [condString ("expected these to be equal:\nACTUAL:\n" ++ sdump actual ++
      "\nEXPECTED:\n" ++ tsdump expected) a]

/-- Go function NotDeepEqual ensures actual and expected are not structurally equal. -/
def NotDeepEqual (actual expected : Option Val) (a : List (Option Val)) :
    List String :=
  if deepEqual actual expected then
    [condString ("expected two different values, but got the same:\n" ++
      tsdump actual) a]
  else []

/-- Go function Subset ensures actual matches subset.  The subset decision is
the external subset-check collaborator (`subsetp.Check(subset, actual)`,
spec's `isSubset(pattern, whole)` contract), not part of this repository, so
it is passed in as the function `chk`; as in the source, `actual` is dumped
with `spew.Sdump` (trailing newline kept) and `subset` with `tsdump`. -/
def Subset (chk : Option Val → Option Val → Bool) (actual subset : Option Val)
    (a : List (Option Val)) : List String :=
  if chk subset actual then []
  else
    [condString ("expected subset not found:\nACTUAL:\n" ++ sdump actual ++
      "\nEXPECTED SUBSET\n" ++ tsdump subset) a]

/-- Go function Nil ensures v is nil.  The space-or-newline separator is chosen by
checking the dump, minus its last character, for a line break
(`strings.Contains(vs[:len(vs)-1], "\n")`); error values are special-cased
through the `v.(error)` type assertion. -/
def Nil (v : Option Val) (a : List (Option Val)) : List String :=
  let vs := tsdump v
  let sp := if '\n' ∈ vs.toList.dropLast then "\n" else " "
  match v with
  | none => []
  | some w =>
    match w with
    | .verr e => [condString ("unexpected error: " ++ e) a]
    | _ => [condString ("expected nil value but got:" ++ sp ++ vs) a]

/-- Go function NotNil ensures v is not nil (the interface value itself is compared
against nil). -/
def NotNil (v : Option Val) (a : List (Option Val)) : List String :=
  match v with
  | none => [condString ("expected a value but got nil") a]
  | some _ => []

/-- Go function True ensures v is true (named `TrueMsgs` because `True` is taken). -/
def TrueMsgs (v : Bool) (a : List (Option Val)) : List String :=
  if v then [] else [condString ("expected true but got false") a]

/-- Go function False ensures v is false (named `FalseMsgs` because `False` is taken). -/
def FalseMsgs (v : Bool) (a : List (Option Val)) : List String :=
  if v then [condString ("expected false but got true") a] else []

/-- Modelled from the spec: the external `strings.Contains(s, substr)`,
substring containment. -/
def strContains (s substr : String) : Bool :=
  decide (substr.toList <:+: s.toList)

/-- Go function StringContains ensures string s contains the string substr; it uses the
multi-line block format when either string contains a line break. -/
def StringContains (s substr : String) (a : List (Option Val)) : List String :=
  if strContains s substr then []
  else
    [condString
      (if strContains s ("\n") || strContains substr ("\n") then
        "expected substring was not found:\nEXPECTED SUBSTRING:\n" ++ substr ++
          "\nACTUAL:\n" ++ s
      else
        "expected substring \"" ++ substr ++ "\" was not found in \"" ++ s ++ "\"") a]

/-- Go function StringDoesNotContain ensures string s does not contain the string
substr. -/
def StringDoesNotContain (s substr : String) (a : List (Option Val)) :
    List String :=
  if strContains s substr then
    [condString ("substring \"" ++ substr ++ "\" was not supposed to be found in \"" ++
      s ++ "\"") a]
  else []

/-- Modelled from the spec: Pretty-Printer rendering of the slice arguments of
`SameElements` (after `toInterfaceSlice`), with the length annotation and one
indented line per element as in the tests. -/
def dumpSlice (l : List Val) : String :=
  "([]interface \x7b\x7d) (len=" ++ toString l.length ++ ") \x7b" ++
    (if l = [] then ""
     else "\n" ++ String.intercalate (",\n") (l.map (fun v => " " ++ dumpVal v)) ++ "\n") ++
    "\x7d"

/-- The library's `tsdump` applied to a slice value. -/
def tsdumpSlice (l : List Val) : String := goTrimSpace (dumpSlice l ++ "\n")

/-- The library's `tsdump` applied to one slice element. -/
def tsdumpVal (v : Val) : String := goTrimSpace (dumpVal v ++ "\n")

/-- The inner loop of `SameElements`: the first index of the actual slice that
is not yet marked used and whose element is `reflect.DeepEqual` to `a`
(`for i, b := range actualSlice`). -/
def firstUnusedMatch (actualSlice : List Val) (used : List Nat) (a : Val) :
    Option Nat :=
  (actualSlice.enum.find? (fun p => !(used.contains p.1) && decide (p.2 = a))).map
    Prod.fst

/-- The outer loop of `SameElements`: for each expected element in order,
consume the first unused matching index of the actual slice; collect, in
order, the expected elements for which no unused match exists (each of which
triggers one `fatal`, after which the loop continues with `used` unchanged,
exactly as in the source). -/
def sameElementsMissing (actualSlice : List Val) :
    List Val → List Nat → List Val
  | [], _ => []
  | a :: rest, used =>
    match firstUnusedMatch actualSlice used a with
    | some i => sameElementsMissing actualSlice rest (i :: used)
    | none => a :: sameElementsMissing actualSlice rest used

/-- The "different lengths" report of `SameElements`. -/
def sameElementsDiffLenMsg (actual expected : List Val)
    (extra : List (Option Val)) : String :=
  condString ("expected same elements but found slices of different lengths:\nACTUAL:\n" ++
    tsdumpSlice actual ++ "\nEXPECTED\n" ++ tsdumpSlice expected) extra

/-- The "missing expected element" report of `SameElements` for the unmatched
expected element `e`. -/
def sameElementsMissingMsg (actual expected : List Val)
    (extra : List (Option Val)) (e : Val) : String :=
  condString ("missing expected element:\nACTUAL:\n" ++ tsdumpSlice actual ++
    "\nEXPECTED:\n" ++ tsdumpSlice expected ++ "\nMISSING ELEMENT\n" ++
    tsdumpVal e) extra

/-- Go function SameElements ensures the two given slices contain the same elements,
ignoring order.  The source has no `return` after the "different lengths"
`fatal`, so when the sink's `Fatal` returns control the element-matching loop
still runs; the message list reflects that. -/
def SameElements (actual expected : List Val) (extra : List (Option Val)) :
    List String :=
  (if actual.length = expected.length then []
   else [sameElementsDiffLenMsg actual expected extra]) ++
    (sameElementsMissing actual expected []).map
      (sameElementsMissingMsg actual expected extra)

/-- Go function PanicDeepEqual ensures a panic occurred with a value `reflect.DeepEqual`
to `expected`.  A nil `expected` is a usage error reported by panicking with a
fixed message (modelled as `Except.error`), before the sink can receive
anything; otherwise the recovered value is compared and the result is the
ordinary dispatch list (`Except.ok`). -/
def PanicDeepEqual (expected : Option Val) (recovered : Option Val)
    (a : List (Option Val)) : Except String (List String) :=
  if expected = none then
    Except.error ("can't pass nil to ensure.PanicDeepEqual")
  else
    Except.ok
      (if deepEqual recovered expected then []
       else
        [condString ("expected these to be equal:\nACTUAL:\n" ++ sdump recovered ++
          "\nEXPECTED:\n" ++ tsdump expected) a])

/-- A captured stack frame, as provided by the external `stack` library. -/
structure Frame where
  file : String
  line : Nat
  name : String
deriving DecidableEq, Repr

/-- Go function isTestFrame: the frame's function name begins with the test-entry marker
(`strings.HasPrefix(f.Name, "Test")`). -/
def isTestFrame (f : Frame) : Bool := ("Test").toList.isPrefixOf f.name.toList

/-- Modelled from the spec: the external `stack` library's rendering of one
frame, `"file:line name"`, as observed in the repository's tests. -/
def frameString (f : Frame) : String :=
  f.file ++ ":" ++ toString f.line ++ " " ++ f.name

/-- Modelled from the spec: the external `stack` library's rendering of a
stack, one frame per line. -/
def stackString (s : List Frame) : String :=
  String.intercalate ("\n") (s.map frameString)

/-- Go `filepath.Base`: the last element of the path, after removing trailing
slashes; "." for the empty path and "/" for an all-slash path. -/
def filepathBase (p : String) : String :=
  if p = "" then "."
  else
    let r := p.toList.reverse.dropWhile (fun c => c == '/')
    if r = [] then "/"
    else String.mk ((r.takeWhile (fun c => !(c == '/'))).reverse)

/-- The accumulation loop of `pstack`: the frames up to and including the
first test-entry frame, or `none` when no frame matches. -/
def takeThroughTest : List Frame → Option (List Frame)
  | [] => none
  | f :: fs =>
    if isTestFrame f then some [f]
    else (takeThroughTest fs).map (fun l => f :: l)

/-- Go function pstack renders the location prefix from the captured stack: the bare
`file:line: ` of the first frame when it is already a test-entry frame,
otherwise the indented rendering of the frames up to and including the first
test-entry frame (the whole stack if none matches), with a trailing newline.
Indexing `s[0]` panics on an empty capture, hence the `Option`. -/
def pstack : List Frame → Option String
  | [] => none
  | first :: rest =>
    if isTestFrame first then
      some (filepathBase first.file ++ ":" ++ toString first.line ++ ": ")
    else
      some
        (match takeThroughTest (first :: rest) with
         | some snew => "        " ++ stackString snew ++ "\n"
         | none => "        " ++ stackString (first :: rest) ++ "\n")

/-- The available (not-yet-used) entries of an indexed element list. -/
def availP (ps : List (Nat × Val)) (used : List Nat) : List Val :=
  (ps.filter (fun p => !(used.contains p.1))).map Prod.snd

/-- The available elements of the actual slice under a used-index set. -/
def avail (actualSlice : List Val) (used : List Nat) : List Val :=
  availP actualSlice.enum used

lemma dropWhile_head_false {α : Type} {p : α → Bool} {l : List α} {x : α}
    (h : (l.dropWhile p).head? = some x) : p x = false := by
  have h2 := List.head?_dropWhile_not p l
  rw [h] at h2
  exact h2

lemma trimChars_getLast_not_space {l : List Char} {c : Char}
    (h : (trimChars l).getLast? = some c) : isGoSpace c = false := by
  unfold trimChars at h
  rw [List.getLast?_reverse] at h
  exact dropWhile_head_false h

lemma mem_dropLast_iff {l : List Char} {x : Char} (h : l.getLast? ≠ some x) :
    x ∈ l.dropLast ↔ x ∈ l := by
  rcases eq_or_ne l [] with rfl | hne
  · simp
  · have hgl : l.getLast? = some (l.getLast hne) := List.getLast?_eq_getLast l hne
    have hx : x ≠ l.getLast hne := fun hxx => h (hxx ▸ hgl)
    constructor
    · intro hm
      exact (List.dropLast_sublist l).subset hm
    · intro hm
      rw [← List.dropLast_append_getLast hne] at hm
      rcases List.mem_append.mp hm with h1 | h2
      · exact h1
      · simp only [List.mem_singleton] at h2
        exact absurd h2 hx

lemma tsdump_getLast_ne_newline (v : Option Val) :
    (tsdump v).toList.getLast? ≠ some '\n' := by
  intro h
  have h1 : (trimChars (sdump v).toList).getLast? = some '\n' := h
  have h2 := trimChars_getLast_not_space h1
  have h3 : isGoSpace '\n' = true := by decide
  rw [h3] at h2
  cases h2

lemma tsdump_newline_dropLast_iff (v : Option Val) :
    '\n' ∈ (tsdump v).toList.dropLast ↔ '\n' ∈ (tsdump v).toList :=
  mem_dropLast_iff (tsdump_getLast_ne_newline v)

lemma singleton_infix_iff_mem {c : Char} {l : List Char} :
    [c] <:+: l ↔ c ∈ l := by
  constructor
  · intro h
    exact h.subset (List.mem_singleton_self c)
  · intro h
    obtain ⟨s, t, rfl⟩ := List.append_of_mem h
    exact ⟨s, t, by simp⟩

lemma strContains_newline_iff (s : String) :
    strContains s ("\n") = true ↔ '\n' ∈ s.toList := by
  unfold strContains
  rw [decide_eq_true_iff]
  exact singleton_infix_iff_mem

lemma avail_nil (actualSlice : List Val) : avail actualSlice [] = actualSlice := by
  unfold avail availP
  rw [List.filter_congr (q := fun _ => true) (by intro p hp; simp)]
  rw [List.filter_true]
  exact List.enum_map_snd actualSlice

lemma firstUnusedMatch_eq_none_iff {actualSlice : List Val} {used : List Nat}
    {a : Val} :
    firstUnusedMatch actualSlice used a = none ↔ a ∉ avail actualSlice used := by
  unfold firstUnusedMatch avail availP
  rw [Option.map_eq_none', List.find?_eq_none]
  simp only [List.mem_map, List.mem_filter, Bool.and_eq_true, Bool.not_eq_true',
    decide_eq_true_iff, not_exists, not_and]
  constructor
  · intro h p hp hpa
    exact h p hp.1 hp.2 hpa
  · intro h p hp hb
    exact h p ⟨hp, hb⟩

lemma firstUnusedMatch_eq_some {actualSlice : List Val} {used : List Nat}
    {a : Val} {i : Nat} (h : firstUnusedMatch actualSlice used a = some i) :
    (i, a) ∈ actualSlice.enum ∧ used.contains i = false := by
  unfold firstUnusedMatch at h
  rw [Option.map_eq_some'] at h
  obtain ⟨p, hp, hfst⟩ := h
  have hpred := List.find?_some hp
  have hmem := List.mem_of_find?_eq_some hp
  rw [Bool.and_eq_true, Bool.not_eq_true', decide_eq_true_iff] at hpred
  obtain ⟨h1, h2⟩ := hpred
  have hpia : p = (i, a) := by
    cases p
    simp only at hfst h2
    rw [hfst, h2]
  rw [hpia] at hmem h1
  exact ⟨hmem, h1⟩

lemma mem_availP {ps : List (Nat × Val)} {used : List Nat} {i : Nat} {a : Val}
    (hmem : (i, a) ∈ ps) (hi : used.contains i = false) :
    a ∈ availP ps used := by
  unfold availP
  rw [List.mem_map]
  exact ⟨(i, a), List.mem_filter.mpr ⟨hmem, by rw [hi]; rfl⟩, rfl⟩

lemma availP_irrelevant_index {ps : List (Nat × Val)} {used : List Nat} {i : Nat}
    (h : ∀ q ∈ ps, q.1 ≠ i) :
    availP ps (i :: used) = availP ps used := by
  unfold availP
  congr 1
  apply List.filter_congr
  intro q hq
  have hne : q.1 ≠ i := h q hq
  simp [List.contains_cons, hne]

lemma multiset_erase_cons_of_mem {α : Type} [DecidableEq α] {a b : α}
    {s : Multiset α} (h : a ∈ s) :
    (b ::ₘ s).erase a = b ::ₘ s.erase a := by
  rcases eq_or_ne b a with rfl | hne
  · rw [Multiset.erase_cons_head]
    conv_lhs => rw [← Multiset.cons_erase h]
  · exact Multiset.erase_cons_tail s hne

lemma availP_cons_used {ps : List (Nat × Val)} {i : Nat}
    {a : Val} (used : List Nat) (hnd : (ps.map Prod.fst).Nodup) (hmem : (i, a) ∈ ps)
    (hi : used.contains i = false) :
    (availP ps (i :: used) : Multiset Val) = (availP ps used : Multiset Val).erase a := by
  induction ps with
  | nil => cases hmem
  | cons q ps ih =>
    rw [List.map_cons, List.nodup_cons] at hnd
    obtain ⟨hp1, hnd'⟩ := hnd
    rcases List.mem_cons.mp hmem with heq | hmem'
    · subst heq
      have hforall : ∀ r ∈ ps, r.1 ≠ i := by
        intro r hr hri
        have hr2 : r.1 ∈ List.map Prod.fst ps := List.mem_map_of_mem Prod.fst hr
        rw [hri] at hr2
        exact hp1 hr2
      have h2 := @availP_irrelevant_index ps used i hforall
      have hcc : ((i : Nat) :: used).contains i = true := by
        rw [List.contains_cons]
        simp
      have hcond1 : ¬ ((fun r : Nat × Val => !((i :: used).contains r.1)) (i, a) = true) := by
        show ¬ ((!((i :: used).contains i)) = true)
        rw [hcc]
        simp
      have hcond2 : (fun r : Nat × Val => !(used.contains r.1)) (i, a) = true := by
        show (!(used.contains i)) = true
        rw [hi]
        rfl
      unfold availP at h2 ⊢
      rw [List.filter_cons_of_neg (p := fun r : Nat × Val => !((i :: used).contains r.1)) hcond1,
        List.filter_cons_of_pos (p := fun r : Nat × Val => !(used.contains r.1)) hcond2,
        List.map_cons, h2, show ((i, a) : Nat × Val).2 = a from rfl,
        ← Multiset.cons_coe, Multiset.erase_cons_head]
    · have hpi : q.1 ≠ i := by
        intro hq
        have hq2 : ((i, a) : Nat × Val).1 ∈ List.map Prod.fst ps :=
          List.mem_map_of_mem Prod.fst hmem'
        have hq3 : q.1 ∈ List.map Prod.fst ps := by
          rw [hq]
          exact hq2
        exact hp1 hq3
      have hcontains : ((i : Nat) :: used).contains q.1 = used.contains q.1 := by
        rw [List.contains_cons]
        have hbe : (q.1 == i) = false := beq_eq_false_iff_ne.mpr hpi
        rw [hbe, Bool.false_or]
      have hain : a ∈ availP ps used := mem_availP hmem' hi
      have ihx := ih hnd' hmem'
      unfold availP at ihx hain ⊢
      rcases hcu : used.contains q.1 with hf | ht
      · have hc1 : (fun r : Nat × Val => !((i :: used).contains r.1)) q = true := by
          show (!((i :: used).contains q.1)) = true
          rw [hcontains, hcu]
          rfl
        have hc2 : (fun r : Nat × Val => !(used.contains r.1)) q = true := by
          show (!(used.contains q.1)) = true
          rw [hcu]
          rfl
        rw [List.filter_cons_of_pos (p := fun r : Nat × Val => !((i :: used).contains r.1)) hc1,
          List.filter_cons_of_pos (p := fun r : Nat × Val => !(used.contains r.1)) hc2,
          List.map_cons, List.map_cons, ← Multiset.cons_coe, ← Multiset.cons_coe,
          ihx, multiset_erase_cons_of_mem hain]
      · have hc1 : ¬ ((fun r : Nat × Val => !((i :: used).contains r.1)) q = true) := by
          show ¬ ((!((i :: used).contains q.1)) = true)
          rw [hcontains, hcu]
          simp
        have hc2 : ¬ ((fun r : Nat × Val => !(used.contains r.1)) q = true) := by
          show ¬ ((!(used.contains q.1)) = true)
          rw [hcu]
          simp
        rw [List.filter_cons_of_neg (p := fun r : Nat × Val => !((i :: used).contains r.1)) hc1,
          List.filter_cons_of_neg (p := fun r : Nat × Val => !(used.contains r.1)) hc2, ihx]

lemma avail_cons_used {actualSlice : List Val} {used : List Nat} {i : Nat}
    {a : Val} (hmem : (i, a) ∈ actualSlice.enum) (hi : used.contains i = false) :
    (avail actualSlice (i :: used) : Multiset Val) =
      (avail actualSlice used : Multiset Val).erase a := by
  unfold avail
  exact availP_cons_used used (List.nodup_enum_map_fst actualSlice) hmem hi

lemma sameElementsMissing_eq_nil (actualSlice : List Val) :
    ∀ (expectedRest : List Val) (used : List Nat),
      (avail actualSlice used : Multiset Val) = (expectedRest : Multiset Val) →
      sameElementsMissing actualSlice expectedRest used = []
  | [], _, _ => rfl
  | a :: rest, used, h => by
    have hmem : a ∈ avail actualSlice used := by
      have : a ∈ (avail actualSlice used : Multiset Val) := by
        rw [h]
        exact Multiset.mem_cons_self a rest
      exact this
    have hfind : firstUnusedMatch actualSlice used a ≠ none := by
      rw [Ne, firstUnusedMatch_eq_none_iff]
      simp [hmem]
    obtain ⟨i, hi⟩ := Option.ne_none_iff_exists'.mp hfind
    obtain ⟨henum, hused⟩ := firstUnusedMatch_eq_some hi
    have hstep : (avail actualSlice (i :: used) : Multiset Val) = (rest : Multiset Val) := by
      rw [avail_cons_used henum hused, h]
      exact Multiset.erase_cons_head a rest
    unfold sameElementsMissing
    rw [hi]
    exact sameElementsMissing_eq_nil actualSlice rest (i :: used) hstep

lemma le_avail_of_missing_nil (actualSlice : List Val) :
    ∀ (expectedRest : List Val) (used : List Nat),
      sameElementsMissing actualSlice expectedRest used = [] →
      (expectedRest : Multiset Val) ≤ (avail actualSlice used : Multiset Val)
  | [], _, _ => by simp
  | a :: rest, used, h => by
    unfold sameElementsMissing at h
    rcases hfm : firstUnusedMatch actualSlice used a with hnone | i
    · rw [hfm] at h
      cases h
    · rw [hfm] at h
      obtain ⟨henum, hused⟩ := firstUnusedMatch_eq_some hfm
      have hain : a ∈ avail actualSlice used := by
        unfold avail
        exact mem_availP henum hused
      have ihx := le_avail_of_missing_nil actualSlice rest (i :: used) h
      rw [avail_cons_used henum hused] at ihx
      calc ((a :: rest : List Val) : Multiset Val)
          = a ::ₘ (rest : Multiset Val) := by rw [Multiset.cons_coe]
        _ ≤ a ::ₘ ((avail actualSlice used : Multiset Val).erase a) :=
            Multiset.cons_le_cons a ihx
        _ = (avail actualSlice used : Multiset Val) := Multiset.cons_erase hain

lemma mem_of_mem_sameElementsMissing (actualSlice : List Val) :
    ∀ (expectedRest : List Val) (used : List Nat) (x : Val),
      x ∈ sameElementsMissing actualSlice expectedRest used → x ∈ expectedRest
  | [], _, _, hx => by cases hx
  | a :: rest, used, x, hx => by
    unfold sameElementsMissing at hx
    rcases hfm : firstUnusedMatch actualSlice used a with hnone | i
    · rw [hfm] at hx
      rcases List.mem_cons.mp hx with rfl | hx'
      · exact List.mem_cons_self x rest
      · exact List.mem_cons_of_mem a
          (mem_of_mem_sameElementsMissing actualSlice rest used x hx')
    · rw [hfm] at hx
      exact List.mem_cons_of_mem a
        (mem_of_mem_sameElementsMissing actualSlice rest (i :: used) x hx)

lemma takeThroughTest_spec (s : List Frame) :
    (∀ tf, s.find? isTestFrame = some tf →
      takeThroughTest s = some (s.takeWhile (fun f => !(isTestFrame f)) ++ [tf])) ∧
    (s.find? isTestFrame = none → takeThroughTest s = none) := by
  induction s with
  | nil =>
    constructor
    · intro tf h
      cases h
    · intro h
      rfl
  | cons f fs ih =>
    rcases hf : isTestFrame f with hfalse | htrue
    · constructor
      · intro tf h
        rw [List.find?_cons_of_neg _ (by rw [hf]; simp)] at h
        have h2 := ih.1 tf h
        unfold takeThroughTest
        rw [hf, if_neg (by simp), h2]
        rw [List.takeWhile_cons_of_pos (by rw [hf]; rfl)]
        rfl
      · intro h
        rw [List.find?_cons_of_neg _ (by rw [hf]; simp)] at h
        have h2 := ih.2 h
        unfold takeThroughTest
        rw [hf, if_neg (by simp), h2]
        rfl
    · constructor
      · intro tf h
        rw [List.find?_cons_of_pos _ hf] at h
        injection h with h
        unfold takeThroughTest
        rw [hf, if_pos rfl, List.takeWhile_cons_of_neg (by rw [hf]; simp), h]
        rfl
      · intro h
        rw [List.find?_cons_of_pos _ hf] at h
        cases h

/-- C1 (amended): every predicate except `SameElements` dispatches exactly
one message when its guarded condition is false and none when it holds —
`Err` against its four-way success condition, `Subset` against the external
subset-check collaborator, and `PanicDeepEqual` on its ordinary path (a
non-nil expected value) against the recovered-value comparison;
`SameElements` with sequences of different lengths dispatches the "different
lengths" report first, and when the sink's abort returns control it proceeds
to element matching, which may dispatch further messages. -/
theorem dispatch_counts (err : Option String) (re : Option Regexp)
    (x y v : Option Val) (b : Bool) (s substr : String)
    (chk : Option Val → Option Val → Bool)
    (actual expected : List Val) (a : List (Option Val)) :
    ((Err err re a).length ≤ 1) ∧
    ((err = none ∧ re = none) ∨
        (∃ e2 r2, err = some e2 ∧ re = some r2 ∧ r2.matchString e2 = true) →
      (Err err re a).length = 0) ∧
    (¬ ((err = none ∧ re = none) ∨
        (∃ e2 r2, err = some e2 ∧ re = some r2 ∧ r2.matchString e2 = true)) →
      (Err err re a).length = 1) ∧
    ((DeepEqual x y a).length = if x = y then 0 else 1) ∧
    ((NotDeepEqual x y a).length = if x = y then 1 else 0) ∧
    ((Subset chk x y a).length = if chk y x = true then 0 else 1) ∧
    ((Nil v a).length = if v = none then 0 else 1) ∧
    ((NotNil v a).length = if v = none then 1 else 0) ∧
    ((TrueMsgs b a).length = if b = true then 0 else 1) ∧
    ((FalseMsgs b a).length = if b = true then 1 else 0) ∧
    ((StringContains s substr a).length =
      if substr.toList <:+: s.toList then 0 else 1) ∧
    ((StringDoesNotContain s substr a).length =
      if substr.toList <:+: s.toList then 1 else 0) ∧
    (∀ w : Val, ∃ msgs, PanicDeepEqual (some w) x a = Except.ok msgs ∧
      msgs.length = if x = some w then 0 else 1) ∧
    (actual.length ≠ expected.length →
      (SameElements actual expected a).head? =
        some (sameElementsDiffLenMsg actual expected a)) := by
  refine ⟨?_, ?_, ?_, ?_, ?_, ?_, ?_, ?_, ?_, ?_, ?_, ?_, ?_, ?_⟩
  · match err, re with
    | none, none => simp [Err]
    | none, some r => simp [Err]
    | some e, none => simp [Err]
    | some e, some r =>
      rcases hm : r.matchString e with hf | ht
      · simp [Err, hm]
      · simp [Err, hm]
  · intro h
    rcases h with ⟨he, hr⟩ | ⟨e2, r2, he, hr, hm⟩
    · rw [he, hr]
      simp [Err]
    · rw [he, hr]
      simp [Err, hm]
  · intro h
    rw [not_or] at h
    obtain ⟨h1, h2⟩ := h
    rcases err with _ | e
    · rcases re with _ | r
      · exact absurd ⟨rfl, rfl⟩ h1
      · simp [Err]
    · rcases re with _ | r
      · simp [Err]
      · have hm : r.matchString e = false := by
          rcases hx : r.matchString e with hf | ht
          · rfl
          · exact absurd ⟨e, r, rfl, rfl, hx⟩ h2
        simp [Err, hm]
  · rcases Decidable.em (x = y) with h | h
    · simp [DeepEqual, deepEqual, h]
    · simp [DeepEqual, deepEqual, h]
  · rcases Decidable.em (x = y) with h | h
    · simp [NotDeepEqual, deepEqual, h]
    · simp [NotDeepEqual, deepEqual, h]
  · rcases hc : chk y x with hf | ht
    · simp [Subset, hc]
    · simp [Subset, hc]
  · rcases v with _ | w
    · simp [Nil]
    · cases w <;> simp [Nil]
  · rcases v with _ | w
    · simp [NotNil]
    · simp [NotNil]
  · cases b <;> simp [TrueMsgs]
  · cases b <;> simp [FalseMsgs]
  · rcases Decidable.em (substr.toList <:+: s.toList) with h | h
    · have hc : strContains s substr = true := by
        unfold strContains
        rw [decide_eq_true_iff]
        exact h
      have h2 : substr.data <:+: s.data := h
      simp [StringContains, hc, h2]
    · have hc : strContains s substr = false := by
        unfold strContains
        rw [decide_eq_false_iff_not]
        exact h
      have h2 : ¬ substr.data <:+: s.data := h
      simp [StringContains, hc, h2]
  · rcases Decidable.em (substr.toList <:+: s.toList) with h | h
    · have hc : strContains s substr = true := by
        unfold strContains
        rw [decide_eq_true_iff]
        exact h
      have h2 : substr.data <:+: s.data := h
      simp [StringDoesNotContain, hc, h2]
    · have hc : strContains s substr = false := by
        unfold strContains
        rw [decide_eq_false_iff_not]
        exact h
      have h2 : ¬ substr.data <:+: s.data := h
      simp [StringDoesNotContain, hc, h2]
  · intro w
    refine ⟨(if deepEqual x (some w) then []
      else
        [condString ("expected these to be equal:\nACTUAL:\n" ++ sdump x ++
          "\nEXPECTED:\n" ++ tsdump (some w)) a]), ?_, ?_⟩
    · simp [PanicDeepEqual]
    · rcases Decidable.em (x = some w) with h | h
      · simp [deepEqual, h]
      · simp [deepEqual, h]
  · intro h
    unfold SameElements
    rw [if_neg h]
    rfl

/-- Witness for C1's amended statement at a concrete input (the repository's
length-difference test case). -/
theorem dispatch_counts_witness :
    (SameElements [Val.vint 1, Val.vint 2] [Val.vint 1] []).head? =
      some (sameElementsDiffLenMsg [Val.vint 1, Val.vint 2] [Val.vint 1] []) :=
  (dispatch_counts none none none none none false "" "" (fun _ _ => false)
    [Val.vint 1, Val.vint 2] [Val.vint 1]
    []).2.2.2.2.2.2.2.2.2.2.2.2.2 (by decide)

/-- Counterexample for C1 as stated: with sequences of different lengths
`[1]` and `[1,2]` the failing `SameElements` invocation dispatches two
messages when the sink's abort returns control (the source has no `return`
after the "different lengths" `fatal`, so element matching still runs). -/
theorem sameElements_length_mismatch_two_dispatches :
    (SameElements [Val.vint 1] [Val.vint 1, Val.vint 2] []).length = 2 := by
  rfl

/-- C2: when the two sequences are permutations of each other (structural
equality with multiplicity), `SameElements` dispatches nothing: the greedy
leftmost-available matching consumes a full one-to-one pairing. -/
theorem sameElements_perm_no_dispatch (actual expected : List Val)
    (extra : List (Option Val)) (h : expected.Perm actual) :
    SameElements actual expected extra = [] := by
  unfold SameElements
  have hlen : actual.length = expected.length := h.length_eq.symm
  rw [if_pos hlen]
  have hm : (avail actual [] : Multiset Val) = (expected : Multiset Val) := by
    rw [avail_nil]
    exact Multiset.coe_eq_coe.mpr h.symm
  rw [sameElementsMissing_eq_nil actual expected [] hm]
  rfl

/-- Witness for C2 at a concrete input (the repository's own test case). -/
theorem sameElements_perm_no_dispatch_witness :
    SameElements [Val.vint 1, Val.vint 2] [Val.vint 2, Val.vint 1] [] = [] :=
  sameElements_perm_no_dispatch [Val.vint 1, Val.vint 2] [Val.vint 2, Val.vint 1]
    [] (by decide)

/-- C3: `StringContains` dispatches exactly when the substring does not occur
in the string, and the dispatched message uses the multi-line block form
exactly when one of the two strings contains a line break, otherwise the
single-line quoted form. -/
theorem stringContains_dispatch_iff (s substr : String) (a : List (Option Val)) :
    (StringContains s substr a ≠ [] ↔ ¬ substr.toList <:+: s.toList) ∧
    (¬ substr.toList <:+: s.toList →
      ('\n' ∈ s.toList ∨ '\n' ∈ substr.toList →
        StringContains s substr a =
          [condString ("expected substring was not found:\nEXPECTED SUBSTRING:\n" ++
            substr ++ "\nACTUAL:\n" ++ s) a]) ∧
      (¬ ('\n' ∈ s.toList ∨ '\n' ∈ substr.toList) →
        StringContains s substr a =
          [condString ("expected substring \"" ++ substr ++ "\" was not found in \"" ++
            s ++ "\"") a])) := by
  constructor
  · unfold StringContains strContains
    rcases Decidable.em (substr.toList <:+: s.toList) with h | h
    · simp [h]
    · simp [h]
  · intro hni
    have hc : strContains s substr = false := by
      unfold strContains
      simpa using hni
    constructor
    · intro hnl
      have hb : (strContains s ("\n") || strContains substr ("\n")) = true := by
        rcases hnl with h1 | h1
        · rw [Bool.or_eq_true]
          exact Or.inl ((strContains_newline_iff s).mpr h1)
        · rw [Bool.or_eq_true]
          exact Or.inr ((strContains_newline_iff substr).mpr h1)
      unfold StringContains
      rw [hc, hb]
      simp
    · intro hnl
      push_neg at hnl
      have hb : (strContains s ("\n") || strContains substr ("\n")) = false := by
        rw [Bool.or_eq_false_iff]
        constructor
        · rw [← Bool.not_eq_true, strContains_newline_iff]
          exact hnl.1
        · rw [← Bool.not_eq_true, strContains_newline_iff]
          exact hnl.2
      unfold StringContains
      rw [hc, hb]
      simp

/-- Witness for C3 at a concrete input (the spec's scenario 3). -/
theorem stringContains_dispatch_iff_witness :
    StringContains ("foo") ("bar") [] =
      [condString ("expected substring \"bar\" was not found in \"foo\"") []] :=
  ((stringContains_dispatch_iff "foo" "bar" []).2 (by decide)).2 (by decide)

/-- C4: `Err` dispatches exactly when it is not the case that both the error
and the pattern are absent or the error is present and the pattern matches
its text; with both absent it is a complete no-op, and each failing case
dispatches the message shape of that case. -/
theorem err_dispatch_cases (err : Option String) (re : Option Regexp)
    (e : String) (r : Regexp) (a : List (Option Val)) :
    (Err none none a = []) ∧
    (Err none (some r) a =
      [condString ("expected error: \"" ++ r.src ++ "\" but got a nil error") a]) ∧
    (Err (some e) none a = [condString ("unexpected error: " ++ e) a]) ∧
    (r.matchString e = true → Err (some e) (some r) a = []) ∧
    (r.matchString e = false → Err (some e) (some r) a =
      [condString ("expected error: \"" ++ r.src ++ "\" but got \"" ++ e ++ "\"") a]) ∧
    (Err err re a = [] ↔
      (err = none ∧ re = none) ∨
        (∃ e2 r2, err = some e2 ∧ re = some r2 ∧ r2.matchString e2 = true)) := by
  refine ⟨rfl, rfl, rfl, ?_, ?_, ?_⟩
  · intro h
    simp [Err, h]
  · intro h
    simp [Err, h]
  · match err, re with
    | none, none => simp [Err]
    | none, some r2 => simp [Err]
    | some e2, none => simp [Err]
    | some e2, some r2 =>
      rcases hm : r2.matchString e2 with hf | ht
      · simp [Err, hm]
      · simp [Err, hm]

/-- Witness for C4 at a concrete input (the spec's scenario: pattern
mismatch). -/
theorem err_dispatch_cases_witness :
    Err (some ("foo")) (some ⟨"bar", fun s => strContains s ("bar")⟩) [] =
      [condString ("expected error: \"bar\" but got \"foo\"") []] :=
  (err_dispatch_cases (some ("foo")) (some ⟨"bar", fun s => strContains s ("bar")⟩)
      ("foo") ⟨"bar", fun s => strContains s ("bar")⟩ []).2.2.2.2.1 (by decide)

/-- C5: structural equality is reflexive, and `DeepEqual` on a value and
itself dispatches nothing to the Sink, for every value and extras list. -/
theorem deepEqual_refl_no_dispatch (v : Option Val) (a : List (Option Val)) :
    deepEqual v v = true ∧ DeepEqual v v a = [] := by
  refine ⟨by simp [deepEqual], ?_⟩
  simp [DeepEqual, deepEqual]

/-- C6: `Nil` on a non-nil value dispatches exactly one message; an
error-typed value always gets the "unexpected error" shape, every other value
gets "expected nil value but got:" followed by the trimmed dump, separated by
a newline instead of a single space exactly when the dump spans multiple
lines. -/
theorem nil_message_shape (w : Val) (a : List (Option Val)) :
    (Nil (some w) a).length = 1 ∧
    (∀ e, w = Val.verr e → Nil (some w) a =
      [condString ("unexpected error: " ++ e) a]) ∧
    ((∀ e, w ≠ Val.verr e) →
      Nil (some w) a =
        [condString ("expected nil value but got:" ++
          (if '\n' ∈ (tsdump (some w)).toList then "\n" else " ") ++
          tsdump (some w)) a]) := by
  refine ⟨?_, ?_, ?_⟩
  · cases w <;> simp [Nil]
  · rintro e rfl
    simp [Nil]
  · intro hne
    have hsp : (if '\n' ∈ (tsdump (some w)).toList.dropLast then "\n" else " ") =
        (if '\n' ∈ (tsdump (some w)).toList then "\n" else " ") := by
      rw [if_congr (tsdump_newline_dropLast_iff (some w)) rfl rfl]
    cases w with
    | verr e => exact absurd rfl (hne e)
    | vint n => simp only [Nil] ; rw [hsp]
    | vstr s => simp only [Nil] ; rw [hsp]
    | vnilPtr => simp only [Nil] ; rw [hsp]
    | vtyp n => simp only [Nil] ; rw [hsp]

/-- Witness for C6 at a concrete input: a struct dump spans multiple lines,
so the newline separator is chosen. -/
theorem nil_message_shape_witness :
    Nil (some (Val.vtyp 0)) [] =
      [condString ("expected nil value but got:" ++
        (if '\n' ∈ (tsdump (some (Val.vtyp 0))).toList then "\n" else " ") ++
        tsdump (some (Val.vtyp 0))) []] :=
  (nil_message_shape (Val.vtyp 0) []).2.2 (fun _ h => Val.noConfusion h)

/-- C7 (amended): on equal-length sequences that are not multiset-equal, the
first dispatched message of `SameElements` is the "missing expected element"
report for an expected element with no available match (the first such in the
greedy scan); when the sink's abort returns control the loop continues, so
further unmatched expected elements may produce further dispatches. -/
theorem sameElements_first_missing (actual expected : List Val)
    (extra : List (Option Val)) (hlen : actual.length = expected.length)
    (hne : ¬ expected.Perm actual) :
    ∃ e rest, SameElements actual expected extra =
        sameElementsMissingMsg actual expected extra e :: rest ∧ e ∈ expected := by
  have hm : sameElementsMissing actual expected [] ≠ [] := by
    intro h0
    have hle := le_avail_of_missing_nil actual expected [] h0
    rw [avail_nil] at hle
    have hcard : Multiset.card ((actual : List Val) : Multiset Val) ≤
        Multiset.card ((expected : List Val) : Multiset Val) := by
      simp [Multiset.coe_card, hlen]
    have heq := Multiset.eq_of_le_of_card_le hle hcard
    exact hne (Multiset.coe_eq_coe.mp heq)
  rcases hms : sameElementsMissing actual expected [] with _ | ⟨e, rest'⟩
  · exact absurd hms hm
  · refine ⟨e, rest'.map (sameElementsMissingMsg actual expected extra), ?_, ?_⟩
    · unfold SameElements
      rw [if_pos hlen, hms]
      rfl
    · exact mem_of_mem_sameElementsMissing actual expected [] e
        (by rw [hms]; exact List.mem_cons_self e rest')

/-- Witness for C7 at a concrete input (the spec's scenario 4). -/
theorem sameElements_first_missing_witness :
    ∃ e rest, SameElements [Val.vint 1, Val.vint 2] [Val.vint 1, Val.vint 1] [] =
        sameElementsMissingMsg [Val.vint 1, Val.vint 2] [Val.vint 1, Val.vint 1] [] e ::
          rest ∧ e ∈ [Val.vint 1, Val.vint 1] :=
  sameElements_first_missing [Val.vint 1, Val.vint 2] [Val.vint 1, Val.vint 1] []
    (by decide) (by decide)

/-- Counterexample for C7 as stated: on `actual = [3,4]`,
`expected = [1,2]` (equal lengths, not multiset-equal) `SameElements`
dispatches two messages when the sink's abort returns control, so checking
does not stop at the first unmatched expected element. -/
theorem sameElements_missing_two_dispatches :
    (SameElements [Val.vint 3, Val.vint 4] [Val.vint 1, Val.vint 2] []).length = 2 := by
  rfl

/-- C8: `PanicDeepEqual` with a nil expected value reports the usage error by
panicking with a fixed message, for every recovered value and extras list;
the Sink receives no dispatch (the result is never an `ok` dispatch list). -/
theorem panicDeepEqual_nil_usage_error (recovered : Option Val)
    (a : List (Option Val)) :
    PanicDeepEqual none recovered a =
      Except.error ("can't pass nil to ensure.PanicDeepEqual") ∧
    ∀ msgs, PanicDeepEqual none recovered a ≠ Except.ok msgs := by
  constructor
  · simp [PanicDeepEqual]
  · intro msgs h
    simp [PanicDeepEqual] at h

/-- Witness for C8 at a concrete input. -/
theorem panicDeepEqual_nil_usage_error_witness :
    PanicDeepEqual none (some (Val.vint 2)) [] =
      Except.error ("can't pass nil to ensure.PanicDeepEqual") :=
  (panicDeepEqual_nil_usage_error (some (Val.vint 2)) []).1

/-- C9: for a non-empty captured stack, `pstack` returns the
`"<base file name>:<line>: "` prefix of the first frame when that frame's
function name begins with "Test"; otherwise, when some frame is a test-entry
frame, the indented rendering (with trailing newline) of the frames up to and
including the first such frame; when no frame matches, the same rendering of
the entire captured stack; and the result is always a non-empty string. -/
theorem pstack_location (first : Frame) (rest : List Frame) :
    (isTestFrame first = true →
      pstack (first :: rest) =
        some (filepathBase first.file ++ ":" ++ toString first.line ++ ": ")) ∧
    (isTestFrame first = false → ∀ tf, (first :: rest).find? isTestFrame = some tf →
      pstack (first :: rest) =
        some ("        " ++
          stackString ((first :: rest).takeWhile (fun f => !(isTestFrame f)) ++ [tf]) ++
          "\n")) ∧
    ((first :: rest).find? isTestFrame = none →
      pstack (first :: rest) =
        some ("        " ++ stackString (first :: rest) ++ "\n")) ∧
    (∀ out, pstack (first :: rest) = some out → out ≠ "") := by
  refine ⟨?_, ?_, ?_, ?_⟩
  · intro h
    simp only [pstack]
    rw [if_pos h]
  · intro h tf htf
    simp only [pstack]
    rw [if_neg (by rw [h]; simp), (takeThroughTest_spec (first :: rest)).1 tf htf]
  · intro h
    have hfirst : isTestFrame first = false := by
      have h2 := List.find?_eq_none.mp h first (List.mem_cons_self first rest)
      rcases hv : isTestFrame first with hx | hx
      · rfl
      · exact absurd hv h2
    simp only [pstack]
    rw [if_neg (by rw [hfirst]; simp), (takeThroughTest_spec (first :: rest)).2 h]
  · intro out hout hempty
    simp only [pstack] at hout
    rcases hv : isTestFrame first with hx | hx
    · rw [if_neg (by rw [hv]; simp)] at hout
      injection hout with hout
      rcases htt : takeThroughTest (first :: rest) with h1 | snew
      · rw [htt] at hout
        have hlen := congrArg String.length hout
        rw [hempty] at hlen
        simp [String.length_append] at hlen
        exact absurd hlen.1.1 (by decide)
      · rw [htt] at hout
        have hlen := congrArg String.length hout
        rw [hempty] at hlen
        simp [String.length_append] at hlen
        exact absurd hlen.1.1 (by decide)
    · rw [if_pos hv] at hout
      injection hout with hout
      have hlen := congrArg String.length hout
      rw [hempty] at hlen
      simp [String.length_append] at hlen
      exact absurd hlen.1.1.2 (by decide)

/-- Witness for C9 at a concrete input: a first frame that is itself a
test-entry frame yields the bare base-file location prefix. -/
theorem pstack_location_witness :
    pstack [(⟨"a/b_test.go", 10, "TestFoo"⟩ : Frame)] = some ("b_test.go:10: ") := by
  have h := (pstack_location ((⟨"a/b_test.go", 10, "TestFoo"⟩ : Frame)) []).1 (by rfl)
  rw [h]
  rfl

/-- C10: an interface value holding a typed nil pointer is treated as
present: `Nil` dispatches exactly one message on it while `NotNil` dispatches
nothing, for every extras list. -/
theorem typed_nil_pointer_present (a : List (Option Val)) :
    (Nil (some Val.vnilPtr) a).length = 1 ∧ NotNil (some Val.vnilPtr) a = [] := by
  constructor
  · simp [Nil]
  · simp [NotNil]

end Ensure
